import Mathlib

/-!
Verification of `scripts/genicons.py` from creativecommons/www-i.

The script batch-generates PNG icons: it enumerates a cross product of
suites, license descriptors, character-code variants, dimension presets,
background colors and foreground colors, derives an output path for each
combination, skips invisible (foreground = background) and already-existing
outputs, and renders the rest via cairo/pango.

Strings from the Python source are modelled as `List Char` (`Str`), Python
floats as exact rationals `ℚ`, and the cairo drawing context as a
measurement oracle `Char → TextExtents` plus the list of pen positions the
drawing loop would emit.  Fallible operations return `Option`/`Except`.
-/

set_option autoImplicit false

abbrev Str := List Char

/-- Table `SUITES` from the source: suite name ↦ (license descriptor ↦ list
of character-code variants). -/
def SUITES : List (Str × List (Str × List Str)) :=
  [("l".data,
    [("by".data, ["b".data]),
     ("by-nc".data, ["bn".data, "be".data, "by".data]),
     ("by-nd".data, ["bd".data]),
     ("by-sa".data, ["ba".data]),
     ("by-nc-nd".data, ["bnd".data, "bed".data, "byd".data]),
     ("by-nc-sa".data, ["bna".data, "bea".data, "bya".data])]),
   ("p".data,
    [("cc-zero".data, ["0".data]),
     ("public-domain-mark".data, ["p".data])])]

/-- Table `DIMENSIONS`: (width, height, font size, padding) presets. -/
def DIMENSIONS : List (Nat × Nat × Nat × Nat) :=
  [(88, 31, 31, 1), (80, 15, 15, 4), (76, 22, 22, 1)]

/-- Table `BACKGROUNDS` from the source. -/
def BACKGROUNDS : List Str :=
  ["transparent".data, "000000".data, "eeeeee".data, "ffffff".data]

/-- Palette `STEPS` of two-hex-digit channel values. -/
def STEPS : List Str :=
  ["00".data, "11".data, "22".data, "33".data, "66".data, "99".data,
   "ff".data]

/-- Table `FOREGROUNDS = ["%s%s%s" % (r, g, b) for r, g, b in
product(STEPS, STEPS, STEPS)]`. -/
def FOREGROUNDS : List Str :=
  STEPS.flatMap fun r => STEPS.flatMap fun g => STEPS.map fun b =>
    r ++ g ++ b

/-- Value of one hex digit, as `int(⬝, 16)` parses it (`0-9`, `a-f`,
`A-F`); characters outside those ranges never arise on valid input. -/
def hexDigitVal (c : Char) : Nat :=
  if 48 ≤ c.toNat ∧ c.toNat ≤ 57 then c.toNat - 48
  else if 97 ≤ c.toNat ∧ c.toNat ≤ 102 then c.toNat - 87
  else if 65 ≤ c.toNat ∧ c.toNat ≤ 70 then c.toNat - 55
  else 0

/-- Whether `c` is a digit `int(⬝, 16)` accepts. -/
def isHexDigit (c : Char) : Bool :=
  decide ((48 ≤ c.toNat ∧ c.toNat ≤ 57) ∨ (97 ≤ c.toNat ∧ c.toNat ≤ 102)
    ∨ (65 ≤ c.toNat ∧ c.toNat ≤ 70))

/-- Function `int(digits, 16)`: base-16 value of a digit string. -/
def hexVal (digits : Str) : Nat :=
  digits.foldl (fun acc c => 16 * acc + hexDigitVal c) 0

/-- Constant `HEX_TO_FLOAT = 1.0 / 255.0`, as an exact rational. -/
def HEX_TO_FLOAT : ℚ := 1 / 255

/-- Function `hex_to_float(digits) = HEX_TO_FLOAT * int(digits, 16)`. -/
def hex_to_float (digits : Str) : ℚ :=
  HEX_TO_FLOAT * (hexVal digits : ℚ)

/-- Function `set_color(ctx, color_string)`, modelled as the (r, g, b, a) source
color it installs on the context: `"transparent"` sets rgba(0,0,0,0);
otherwise `set_source_rgb` of the three converted channels (alpha 1). -/
def set_color (color_string : Str) : ℚ × ℚ × ℚ × ℚ :=
  if color_string = "transparent".data then (0, 0, 0, 0)
  else (hex_to_float (color_string.take 2),
        hex_to_float ((color_string.drop 2).take 2),
        hex_to_float ((color_string.drop 4).take 2),
        1)

/-- One cairo `text_extents` record: (x_bearing, y_bearing, width, height,
x_advance, y_advance) — the source's own comment labels the tuple
`# x, y, width, height, dx, dy`, so index 2 is the ink width and index 3
the ink height. -/
structure TextExtents where
  x_bearing : ℚ
  y_bearing : ℚ
  width : ℚ
  height : ℚ
  x_advance : ℚ
  y_advance : ℚ
deriving DecidableEq

/-- Function `size_chars(ctx, chars)`: measure every character.  The drawing
context is modelled by its measurement oracle `measure`. -/
def size_chars (measure : Char → TextExtents) (chars : Str) :
    List TextExtents :=
  chars.map measure

/-- Line 76 of the source:
`total_width = reduce(lambda x, y: y[3] + x, sizes, 0.0)`.
Note that `y[3]` is the HEIGHT field of the extents tuple. -/
def total_width_of (sizes : List TextExtents) : ℚ :=
  sizes.foldl (fun x y => y.height + x) 0

/-- Line 77 of the source: the starting pen x,
`x = 0.5 + math.ceil((width / 2) - ((total_width + total_padding) / 2))`
with `total_padding = padding * (len(chars) - 1)`. -/
def start_x (sizes : List TextExtents) (nchars : Nat) (padding width : ℚ) :
    ℚ :=
  1 / 2 +
    ((Int.ceil (width / 2 -
      ((total_width_of sizes + padding * ((nchars : ℚ) - 1)) / 2))) : ℚ)

/-- The run width the SPEC claims the layout centers by: the sum of each
character's measured ink-extent WIDTH, plus padding between characters;
written from the spec's words for comparison with `start_x`. -/
def claimed_start_x (sizes : List TextExtents) (nchars : Nat)
    (padding width : ℚ) : ℚ :=
  1 / 2 +
    ((Int.ceil (width / 2 -
      ((sizes.foldl (fun x y => y.width + x) 0
        + padding * ((nchars : ℚ) - 1)) / 2))) : ℚ)

/-- The drawing loop of `show_chars` (lines 80-83): pen positions
`(ceil x, ceil y)` for each character, advancing x by `size[2] + padding`
(the WIDTH field). `y` is already an integer so `math.ceil(y) = y`. -/
def penPositions (sizes : List TextExtents) (x : ℚ) (y : Int)
    (padding : ℚ) : List (Int × Int) :=
  match sizes with
  | [] => []
  | s :: rest => (Int.ceil x, y) :: penPositions rest (x + s.width + padding) y padding

/-- Function `show_chars(ctx, chars, foreground, padding, width, height)`:
measures the characters, computes the starting x and y, sets the
foreground color and emits the pen positions.  `sizes[0]` on line 78
raises `IndexError` when `chars` is empty, modelled as `none`. -/
def show_chars (measure : Char → TextExtents) (chars : Str)
    (foreground : Str) (padding width height : ℚ) :
    Option ((ℚ × ℚ × ℚ × ℚ) × List (Int × Int)) :=
  let sizes := size_chars measure chars
  match sizes with
  | [] => none
  | s0 :: _ =>
    let x := start_x sizes chars.length padding width
    let y : Int := Int.ceil (height / 2) + Int.floor (s0.height / 2)
    some (set_color foreground, penPositions sizes x y padding)

/-- Function `icon_filename(dimensions, characters)` from the source:
suffix `-y` if `"y" in characters`, else `-e` if `"e" in characters`,
else empty; filename `f"{dimensions[0]}x{dimensions[1]}{suffix}.png"`. -/
def icon_filename (dimensions : Nat × Nat × Nat × Nat) (characters : Str) :
    Str :=
  let suffix : Str :=
    if 'y' ∈ characters then "-y".data
    else if 'e' ∈ characters then "-e".data
    else []
  (Nat.repr dimensions.1).data ++ "x".data ++ (Nat.repr dimensions.2.1).data
    ++ suffix ++ ".png".data

/-- The suffix rule as the spec words it: "-y" if any character is "y",
else "-e" if any is "e", else empty; filename `{width}x{height}{suffix}.png`.
Written from the spec for comparison with `icon_filename`. -/
def iconFilenameSpec (dimensions : Nat × Nat × Nat × Nat)
    (characters : Str) : Str :=
  (Nat.repr dimensions.1).data ++ "x".data ++ (Nat.repr dimensions.2.1).data
    ++ (if 'y' ∈ characters then "-y".data
        else if 'e' ∈ characters then "-e".data else [])
    ++ ".png".data

/-- Function `icon_path(suite, descriptor, background, foreground)`:
`os.path.join(suite, descriptor, background, fg[0:2], fg[2:4], fg[4:6])`,
i.e. the components joined with "/". -/
def icon_path (suite descriptor background foreground : Str) : Str :=
  suite ++ "/".data ++ descriptor ++ "/".data ++ background ++ "/".data ++
    foreground.take 2 ++ "/".data ++ (foreground.drop 2).take 2 ++
    "/".data ++ (foreground.drop 4).take 2

/-- One combination visited by the driver's nested loops in `main`. -/
structure Combo where
  suite : Str
  lic : Str
  chars : Str
  dims : Nat × Nat × Nat × Nat
  background : Str
  foreground : Str
deriving DecidableEq

/-- Every combination `main` iterates over, in loop order:
suite → license → product(module_chars, DIMENSIONS, BACKGROUNDS,
FOREGROUNDS). -/
def allCombos : List Combo :=
  SUITES.flatMap fun sp =>
    sp.2.flatMap fun lp =>
      lp.2.flatMap fun ch =>
        DIMENSIONS.flatMap fun dm =>
          BACKGROUNDS.flatMap fun bg =>
            FOREGROUNDS.map fun fg =>
              ⟨sp.1, lp.1, ch, dm, bg, fg⟩

/-- The output file path of a combination, relative to `basedir`:
`icon_path(...)` joined with `icon_filename(...)`. -/
def filepathOf (c : Combo) : Str :=
  icon_path c.suite c.lic c.background c.foreground ++ "/".data ++
    icon_filename c.dims c.chars

/-- The combinations for which `main` calls `genicon` and then writes a
PNG, as a function of the filesystem-existence oracle: the source skips a
combination when `foreground == background` (line 159) or when
`os.path.exists(filepath)` (line 174). -/
def rendersInvoked (exists_fn : Str → Bool) : List Combo :=
  allCombos.filter fun c =>
    decide (c.foreground ≠ c.background) && ! exists_fn (filepathOf c)

/-- Value of `errno.EEXIST` on POSIX. -/
def EEXIST : Int := 17

/-- A raised `OSError`, identified by its errno. -/
structure OSErr where
  errno : Int
deriving DecidableEq

/-- The `try: os.makedirs(path) except OSError as e: if e.errno !=
errno.EEXIST: raise` block (lines 190-194), as a function of the outcome
of `os.makedirs`. -/
def makedirs_guard (r : Except OSErr Unit) : Except OSErr Unit :=
  match r with
  | Except.ok _ => Except.ok ()
  | Except.error e =>
      if e.errno ≠ EEXIST then Except.error e else Except.ok ()

/-- Lines 190-196: create the directory, then (when the guard did not
re-raise) write the PNG; `Except.ok true` means the PNG write was
reached. -/
def makedirs_then_write (r : Except OSErr Unit) : Except OSErr Bool :=
  match makedirs_guard r with
  | Except.ok _ => Except.ok true
  | Except.error e => Except.error e

/-- How `main()` can terminate, as seen by the `__main__` handler. -/
inductive MainOutcome where
  | normal : MainOutcome
  | systemExit : Int → MainOutcome
  | keyboardInterrupt : MainOutcome
  | unhandled : Str → MainOutcome
deriving DecidableEq

/-- The `__main__` try/except ladder (lines 199-210): exit status and the
lines printed to stderr. -/
def exitOf : MainOutcome → Int × List Str
  | MainOutcome.normal => (0, [])
  | MainOutcome.systemExit c => (c, [])
  | MainOutcome.keyboardInterrupt =>
      (130, ["INFO (130) Halted via KeyboardInterrupt.".data])
  | MainOutcome.unhandled msg =>
      (1, ["ERROR (1) Unhandled exception:".data, msg])

/-- The startup font check of `main` (lines 140-145): raise unless
"CC Icons" is among the installed font family names. -/
def font_check (families : List Str) : Except Str Unit :=
  if "CC Icons".data ∈ families then Except.ok ()
  else Except.error
    "CC Icons font not installed. See <https://wiki.debian.org/Fonts>.".data

/-- Run the program with the given installed font families, assuming the
generation loop itself raises nothing: a missing font becomes an
unhandled exception at the top level. -/
def run_program (families : List Str) : Int × List Str :=
  exitOf (match font_check families with
          | Except.ok _ => MainOutcome.normal
          | Except.error m => MainOutcome.unhandled m)

/-- The suffix part of `icon_filename` on its own, for the variant
disambiguation argument. -/
def suffix_of (characters : Str) : Str :=
  if 'y' ∈ characters then "-y".data
  else if 'e' ∈ characters then "-e".data
  else []

/-- All (descriptor, variants) entries of the `SUITES` table. -/
def descriptor_variants : List (Str × List Str) :=
  SUITES.flatMap fun sp => sp.2

/-- The suite names of the `SUITES` table. -/
def suiteNames : List Str := SUITES.map fun sp => sp.1

/-- The descriptor names of the `SUITES` table. -/
def descriptorNames : List Str :=
  SUITES.flatMap fun sp => sp.2.map fun lp => lp.1

set_option maxRecDepth 40000

/-! ### Helper lemmas -/

theorem hexDigitVal_le_15 (c : Char) : hexDigitVal c ≤ 15 := by
  unfold hexDigitVal
  split_ifs with h1 h2 h3 <;> omega

theorem hexVal_le_255 (l : Str) (h : l.length ≤ 2) : hexVal l ≤ 255 := by
  match l with
  | [] => simp [hexVal]
  | [a] =>
      have := hexDigitVal_le_15 a
      simp only [hexVal, List.foldl]
      omega
  | [a, b] =>
      have ha := hexDigitVal_le_15 a
      have hb := hexDigitVal_le_15 b
      simp only [hexVal, List.foldl]
      omega
  | a :: b :: c :: rest => simp at h

theorem hex_to_float_eq_div (l : Str) :
    hex_to_float l = (hexVal l : ℚ) / 255 := by
  unfold hex_to_float HEX_TO_FLOAT
  ring

theorem hex_to_float_mem_Icc (l : Str) (h : l.length ≤ 2) :
    hex_to_float l ∈ Set.Icc (0 : ℚ) 1 := by
  rw [hex_to_float_eq_div]
  constructor
  · positivity
  · rw [div_le_one (by norm_num)]
    exact_mod_cast hexVal_le_255 l h

/-- Splitting at the first separator: appending slash-free prefixes before
a '/' is injective. -/
theorem append_slash_inj (a : Str) : ∀ (b r rb : Str), '/' ∉ a → '/' ∉ b →
    a ++ '/' :: r = b ++ '/' :: rb → a = b ∧ r = rb := by
  induction a with
  | nil =>
      intro b r rb _ hb h
      cases b with
      | nil =>
          simp only [List.nil_append] at h
          exact ⟨rfl, (List.cons.injEq _ _ _ _ ▸ h).2⟩
      | cons d bs =>
          simp only [List.nil_append, List.cons_append,
            List.cons.injEq] at h
          exact absurd (h.1 ▸ List.mem_cons_self d bs) hb
  | cons c cs ih =>
      intro b r rb ha hb h
      cases b with
      | nil =>
          simp only [List.cons_append, List.nil_append,
            List.cons.injEq] at h
          exact absurd (h.1 ▸ List.mem_cons_self c cs) ha
      | cons d bs =>
          simp only [List.cons_append, List.cons.injEq] at h
          obtain ⟨h1, h2⟩ := h
          have ha' : '/' ∉ cs := fun hm => ha (List.mem_cons_of_mem c hm)
          have hb' : '/' ∉ bs := fun hm => hb (List.mem_cons_of_mem d hm)
          obtain ⟨e1, e2⟩ := ih bs r rb ha' hb' h2
          exact ⟨by rw [h1, e1], e2⟩

/-- A 6-character string is the concatenation of its three two-character
slices `[0:2]`, `[2:4]`, `[4:6]`. -/
theorem seg_decomp (f : Str) (hf : f.length = 6) :
    f = f.take 2 ++ ((f.drop 2).take 2 ++ (f.drop 4).take 2) := by
  have h4 : (f.drop 2).drop 2 = f.drop 4 := by
    rw [List.drop_drop]
  have hlen : (f.drop 4).length = 2 := by
    rw [List.length_drop, hf]
  have h5 : (f.drop 4).take 2 = f.drop 4 := by
    apply List.take_of_length_le
    omega
  conv_lhs => rw [← List.take_append_drop 2 f,
    ← List.take_append_drop 2 (f.drop 2)]
  rw [h4, h5]

theorem suiteNames_no_slash : ∀ s ∈ suiteNames, '/' ∉ s := by decide

theorem descriptorNames_no_slash : ∀ d ∈ descriptorNames, '/' ∉ d := by
  decide

theorem backgrounds_no_slash : ∀ b ∈ BACKGROUNDS, '/' ∉ b := by decide

theorem foregrounds_hex6 : ∀ f ∈ FOREGROUNDS, f.length = 6 ∧ '/' ∉ f := by
  decide

/-! ### Claims -/

/-- C2: `icon_filename` returns exactly `{width}x{height}{suffix}.png`
where the suffix is "-y" if any character is "y", else "-e" if any
character is "e", else empty; the precedence is y over e, so the
characters b, y, e yield "-y", not "-e". -/
theorem icon_filename_matches_spec :
    (∀ (d : Nat × Nat × Nat × Nat) (c : Str),
      icon_filename d c = iconFilenameSpec d c) ∧
    icon_filename (88, 31, 31, 1) "bye".data = "88x31-y.png".data :=
  ⟨fun _ _ => rfl, by decide⟩

/-- C6: on a valid 6-hex-digit color string, `set_color` yields the three
channel values `hexVal(slice) / 255`, each in `[0, 1]` (with alpha 1 from
`set_source_rgb`); on "transparent" it yields rgba (0, 0, 0, 0). -/
theorem set_color_spec_correct :
    (∀ s : Str, s.length = 6 → (∀ c ∈ s, isHexDigit c = true) →
      set_color s = ((hexVal (s.take 2) : ℚ) / 255,
        (hexVal ((s.drop 2).take 2) : ℚ) / 255,
        (hexVal ((s.drop 4).take 2) : ℚ) / 255, 1) ∧
      (set_color s).1 ∈ Set.Icc (0 : ℚ) 1 ∧
      (set_color s).2.1 ∈ Set.Icc (0 : ℚ) 1 ∧
      (set_color s).2.2.1 ∈ Set.Icc (0 : ℚ) 1) ∧
    set_color "transparent".data = (0, 0, 0, 0) := by
  constructor
  · intro s hlen _
    have hne : s ≠ "transparent".data := by
      intro h
      rw [h] at hlen
      simp at hlen
    have ht : (s.take 2).length ≤ 2 := by simp
    have ht2 : ((s.drop 2).take 2).length ≤ 2 := by simp
    have ht4 : ((s.drop 4).take 2).length ≤ 2 := by simp
    refine ⟨?_, ?_, ?_, ?_⟩
    · simp only [set_color, if_neg hne, hex_to_float_eq_div]
    · simpa only [set_color, if_neg hne] using hex_to_float_mem_Icc _ ht
    · simpa only [set_color, if_neg hne] using hex_to_float_mem_Icc _ ht2
    · simpa only [set_color, if_neg hne] using hex_to_float_mem_Icc _ ht4
  · rfl

/-- Witness for C6 at the concrete color string "1a2b3c". -/
theorem set_color_spec_correct_witness :
    set_color "1a2b3c".data = ((hexVal ("1a2b3c".data.take 2) : ℚ) / 255,
      (hexVal (("1a2b3c".data.drop 2).take 2) : ℚ) / 255,
      (hexVal (("1a2b3c".data.drop 4).take 2) : ℚ) / 255, 1) ∧
    (set_color "1a2b3c".data).1 ∈ Set.Icc (0 : ℚ) 1 ∧
    (set_color "1a2b3c".data).2.1 ∈ Set.Icc (0 : ℚ) 1 ∧
    (set_color "1a2b3c".data).2.2.1 ∈ Set.Icc (0 : ℚ) 1 :=
  set_color_spec_correct.1 "1a2b3c".data (by decide) (by decide)

/-- C7: a directory-creation failure with errno EEXIST is swallowed and
the PNG write is still reached; any other errno is re-raised. -/
theorem makedirs_eexist_swallowed : ∀ e : OSErr,
    (e.errno = EEXIST → makedirs_then_write (Except.error e) =
      Except.ok true) ∧
    (e.errno ≠ EEXIST → makedirs_then_write (Except.error e) =
      Except.error e) := by
  intro e
  constructor
  · intro h
    simp [makedirs_then_write, makedirs_guard, h]
  · intro h
    simp [makedirs_then_write, makedirs_guard, h]

/-- Witness for C7: EEXIST (errno 17) is swallowed, ENOENT (errno 2) is
re-raised. -/
theorem makedirs_eexist_swallowed_witness :
    makedirs_then_write (Except.error ⟨17⟩) = Except.ok true ∧
    makedirs_then_write (Except.error ⟨2⟩) = Except.error ⟨2⟩ :=
  ⟨(makedirs_eexist_swallowed ⟨17⟩).1 rfl,
   (makedirs_eexist_swallowed ⟨2⟩).2 (by decide)⟩

/-- C8: exit status 0 on normal completion, 130 on KeyboardInterrupt,
1 on any other unhandled exception with output on stderr; a missing
"CC Icons" font is such an unhandled exception and terminates the run
with the descriptive font error. -/
theorem exit_codes_correct :
    (exitOf MainOutcome.normal).1 = 0 ∧
    (exitOf MainOutcome.keyboardInterrupt).1 = 130 ∧
    (∀ msg, (exitOf (MainOutcome.unhandled msg)).1 = 1 ∧
      (exitOf (MainOutcome.unhandled msg)).2 ≠ []) ∧
    (∀ families : List Str, "CC Icons".data ∉ families →
      run_program families = (1, ["ERROR (1) Unhandled exception:".data,
        ("CC Icons font not installed. " ++
          "See <https://wiki.debian.org/Fonts>.").data])) := by
  refine ⟨rfl, rfl, fun msg => ⟨rfl, by simp [exitOf]⟩, ?_⟩
  intro families h
  simp [run_program, font_check, h, exitOf]

/-- Witness for C8: with no fonts installed the program exits 1 and
prints the unhandled-exception banner and the font error. -/
theorem exit_codes_correct_witness :
    run_program [] = (1, ["ERROR (1) Unhandled exception:".data,
      ("CC Icons font not installed. " ++
        "See <https://wiki.debian.org/Fonts>.").data]) :=
  exit_codes_correct.2.2.2 [] (by decide)

/-- Membership in `allCombos` determines the shape of a combination:
its chars field is one of the variant lists of its descriptor's entry in
the `SUITES` table. -/
theorem mem_allCombos_chars (c : Combo) (h : c ∈ allCombos) :
    ∃ sp ∈ SUITES, ∃ lp ∈ sp.2, c.lic = lp.1 ∧ c.chars ∈ lp.2 := by
  simp only [allCombos, List.mem_flatMap, List.mem_map] at h
  obtain ⟨sp, hsp, lp, hlp, ch, hch, dm, _, bg, _, fg, _, hc⟩ := h
  refine ⟨sp, hsp, lp, hlp, ?_, ?_⟩
  · rw [← hc]
  · rw [← hc]
    exact hch

theorem suites_variants_nonempty :
    ∀ sp ∈ SUITES, ∀ lp ∈ sp.2, ∀ v ∈ lp.2, v ≠ [] := by decide

/-- Lemma: `show_chars` succeeds on any non-empty character string. -/
theorem show_chars_isSome_of_ne_nil (measure : Char → TextExtents)
    (chars : Str) (fg : Str) (padding width height : ℚ)
    (h : chars ≠ []) :
    (show_chars measure chars fg padding width height).isSome = true := by
  cases chars with
  | nil => exact absurd rfl h
  | cons a rest => simp [show_chars, size_chars]

/-- C3: whenever foreground equals background the driver skips the
combination: no invocation of `genicon` (and hence no file write) ever
has equal foreground and background. -/
theorem skipped_when_foreground_eq_background :
    ∀ (exists_fn : Str → Bool) (c : Combo),
      c ∈ rendersInvoked exists_fn → c.foreground ≠ c.background := by
  intro exists_fn c h
  have h2 := (List.mem_filter.mp h).2
  rw [Bool.and_eq_true] at h2
  exact of_decide_eq_true h2.1

/-- Witness for C3: the first rendered combination (black on
transparent) indeed has foreground ≠ background. -/
theorem skipped_when_foreground_eq_background_witness :
    (Combo.mk "l".data "by".data "b".data (88, 31, 31, 1)
      "transparent".data "000000".data).foreground ≠
    (Combo.mk "l".data "by".data "b".data (88, 31, 31, 1)
      "transparent".data "000000".data).background :=
  skipped_when_foreground_eq_background (fun _ => false)
    (Combo.mk "l".data "by".data "b".data (88, 31, 31, 1)
      "transparent".data "000000".data) (by decide)

/-- C5: the generation is idempotent and append-only: every combination
actually rendered has a target file that did not exist, and when every
path already exists (a second run over a complete tree) nothing is
rendered or written at all. -/
theorem existing_files_never_overwritten :
    ∀ exists_fn : Str → Bool,
      (∀ c ∈ rendersInvoked exists_fn,
        exists_fn (filepathOf c) = false) ∧
      ((∀ p, exists_fn p = true) → rendersInvoked exists_fn = []) := by
  intro exists_fn
  constructor
  · intro c h
    have h2 := (List.mem_filter.mp h).2
    rw [Bool.and_eq_true] at h2
    simpa using h2.2
  · intro hall
    apply List.filter_eq_nil_iff.mpr
    intro c _
    simp [hall]

/-- Witness for C5: with a complete tree no combination is rendered, and
the first write of a fresh run targets a not-yet-existing path. -/
theorem existing_files_never_overwritten_witness :
    rendersInvoked (fun _ => true) = [] ∧
    (fun _ : Str => false) (filepathOf (Combo.mk "l".data "by".data
      "b".data (88, 31, 31, 1) "transparent".data "000000".data)) =
      false :=
  ⟨(existing_files_never_overwritten (fun _ => true)).2 (fun _ => rfl),
   (existing_files_never_overwritten (fun _ => false)).1
    (Combo.mk "l".data "by".data "b".data (88, 31, 31, 1)
      "transparent".data "000000".data) (by decide)⟩

/-- C10: `show_chars` fails (IndexError on `sizes[0]`) exactly when the
character string is empty; every variant in the `SUITES` table is
non-empty, so every combination the driver renders reaches `show_chars`
with a non-empty string and the failing branch is unreachable. -/
theorem show_chars_nonempty_precondition :
    (∀ (measure : Char → TextExtents) (fg : Str)
      (padding width height : ℚ),
      show_chars measure [] fg padding width height = none) ∧
    (∀ sp ∈ SUITES, ∀ lp ∈ sp.2, ∀ v ∈ lp.2, v ≠ []) ∧
    (∀ (exists_fn : Str → Bool) (measure : Char → TextExtents)
      (c : Combo), c ∈ rendersInvoked exists_fn →
      (show_chars measure c.chars c.foreground (c.dims.2.2.2 : ℚ)
        (c.dims.1 : ℚ) (c.dims.2.1 : ℚ)).isSome = true) := by
  refine ⟨fun _ _ _ _ _ => rfl, suites_variants_nonempty, ?_⟩
  intro exists_fn measure c h
  have hmem : c ∈ allCombos := (List.mem_filter.mp h).1
  obtain ⟨sp, hsp, lp, hlp, _, hch⟩ := mem_allCombos_chars c hmem
  exact show_chars_isSome_of_ne_nil measure c.chars c.foreground _ _ _
    (suites_variants_nonempty sp hsp lp hlp c.chars hch)

/-- Witness for C10: the first rendered combination draws its single
character successfully. -/
theorem show_chars_nonempty_precondition_witness :
    (show_chars (fun _ => TextExtents.mk 0 0 0 0 0 0)
      (Combo.mk "l".data "by".data "b".data (88, 31, 31, 1)
        "transparent".data "000000".data).chars
      (Combo.mk "l".data "by".data "b".data (88, 31, 31, 1)
        "transparent".data "000000".data).foreground
      ((Combo.mk "l".data "by".data "b".data (88, 31, 31, 1)
        "transparent".data "000000".data).dims.2.2.2 : ℚ)
      ((Combo.mk "l".data "by".data "b".data (88, 31, 31, 1)
        "transparent".data "000000".data).dims.1 : ℚ)
      ((Combo.mk "l".data "by".data "b".data (88, 31, 31, 1)
        "transparent".data "000000".data).dims.2.1 : ℚ)).isSome = true :=
  show_chars_nonempty_precondition.2.2 (fun _ => false)
    (fun _ => TextExtents.mk 0 0 0 0 0 0)
    (Combo.mk "l".data "by".data "b".data (88, 31, 31, 1)
      "transparent".data "000000".data) (by decide)

/-- Rewriting `icon_path` in right-nested, separator-fronted form. -/
theorem icon_path_eq (s d b f : Str) :
    icon_path s d b f =
      s ++ '/' :: (d ++ '/' :: (b ++ '/' :: (f.take 2 ++ '/' ::
        ((f.drop 2).take 2 ++ '/' :: (f.drop 4).take 2)))) := by
  simp only [icon_path, List.append_assoc]
  rfl

/-- Rewriting `icon_filename` with its suffix factored out. -/
theorem icon_filename_eq (d : Nat × Nat × Nat × Nat) (c : Str) :
    icon_filename d c = (Nat.repr d.1).data ++ "x".data ++
      (Nat.repr d.2.1).data ++ suffix_of c ++ ".png".data := rfl

theorem suffixes_pairwise : ∀ p ∈ descriptor_variants,
    p.2.Pairwise (fun a b => suffix_of a ≠ suffix_of b) := by decide

/-- C1 (bug evidence): the quantity line 76 accumulates into
`total_width` is the HEIGHT field (`y[3]`) of each extents record, so
for a single glyph of ink width 10 and ink height 20 on an 88-wide
canvas with padding 1 the code starts the pen at x = 34.5, while
centering by the summed ink WIDTHS — what the drawing loop actually
advances by, and what the spec describes — would start at x = 39.5. -/
theorem show_chars_centers_by_heights_not_widths :
    total_width_of [TextExtents.mk 0 0 10 20 10 0] = 20 ∧
    start_x [TextExtents.mk 0 0 10 20 10 0] 1 1 88 = 69 / 2 ∧
    claimed_start_x [TextExtents.mk 0 0 10 20 10 0] 1 1 88 = 79 / 2 ∧
    start_x [TextExtents.mk 0 0 10 20 10 0] 1 1 88 ≠
      claimed_start_x [TextExtents.mk 0 0 10 20 10 0] 1 1 88 := by
  refine ⟨?_, ?_, ?_, ?_⟩ <;>
    norm_num [start_x, claimed_start_x, total_width_of]

/-- C4: `icon_path` is deterministic (a pure function of its arguments)
and injective on the enumerated domain: any two tuples drawn from the
suite names, descriptor names, `BACKGROUNDS` and `FOREGROUNDS` that
yield the same directory path are equal. -/
theorem icon_path_injective_on_domain :
    ∀ s1 d1 b1 f1 s2 d2 b2 f2 : Str,
      s1 ∈ suiteNames → d1 ∈ descriptorNames → b1 ∈ BACKGROUNDS →
      f1 ∈ FOREGROUNDS → s2 ∈ suiteNames → d2 ∈ descriptorNames →
      b2 ∈ BACKGROUNDS → f2 ∈ FOREGROUNDS →
      icon_path s1 d1 b1 f1 = icon_path s2 d2 b2 f2 →
      s1 = s2 ∧ d1 = d2 ∧ b1 = b2 ∧ f1 = f2 := by
  intro s1 d1 b1 f1 s2 d2 b2 f2 hs1 hd1 hb1 hf1 hs2 hd2 hb2 hf2 heq
  rw [icon_path_eq, icon_path_eq] at heq
  obtain ⟨hlen1, hsl1⟩ := foregrounds_hex6 f1 hf1
  obtain ⟨hlen2, hsl2⟩ := foregrounds_hex6 f2 hf2
  have t1 : '/' ∉ f1.take 2 := fun hm => hsl1 (List.take_subset 2 f1 hm)
  have t2 : '/' ∉ f2.take 2 := fun hm => hsl2 (List.take_subset 2 f2 hm)
  have u1 : '/' ∉ (f1.drop 2).take 2 := fun hm =>
    hsl1 (List.drop_subset 2 f1 (List.take_subset 2 (f1.drop 2) hm))
  have u2 : '/' ∉ (f2.drop 2).take 2 := fun hm =>
    hsl2 (List.drop_subset 2 f2 (List.take_subset 2 (f2.drop 2) hm))
  obtain ⟨es, h2⟩ := append_slash_inj s1 s2 _ _
    (suiteNames_no_slash s1 hs1) (suiteNames_no_slash s2 hs2) heq
  obtain ⟨ed, h3⟩ := append_slash_inj d1 d2 _ _
    (descriptorNames_no_slash d1 hd1) (descriptorNames_no_slash d2 hd2) h2
  obtain ⟨eb, h4⟩ := append_slash_inj b1 b2 _ _
    (backgrounds_no_slash b1 hb1) (backgrounds_no_slash b2 hb2) h3
  obtain ⟨eg1, h5⟩ := append_slash_inj (f1.take 2) (f2.take 2) _ _ t1 t2 h4
  obtain ⟨eg2, eg3⟩ := append_slash_inj ((f1.drop 2).take 2)
    ((f2.drop 2).take 2) _ _ u1 u2 h5
  refine ⟨es, ed, eb, ?_⟩
  rw [seg_decomp f1 hlen1, seg_decomp f2 hlen2, eg1, eg2, eg3]

/-- Witness for C4 at a concrete tuple from the enumerated domain. -/
theorem icon_path_injective_on_domain_witness :
    ("l".data : Str) = "l".data ∧ ("by".data : Str) = "by".data ∧
    ("transparent".data : Str) = "transparent".data ∧
    ("000000".data : Str) = "000000".data :=
  icon_path_injective_on_domain "l".data "by".data "transparent".data
    "000000".data "l".data "by".data "transparent".data "000000".data
    (by decide) (by decide) (by decide) (by decide) (by decide)
    (by decide) (by decide) (by decide) rfl

/-- C9: within each descriptor of the `SUITES` table the character-code
variants have pairwise distinct filename suffixes, so two distinct
variants of the same descriptor with the same dimensions, background and
foreground never produce the same output file path. -/
theorem variants_have_distinct_outputs :
    (∀ p ∈ descriptor_variants,
      p.2.Pairwise (fun a b => suffix_of a ≠ suffix_of b)) ∧
    (∀ p ∈ descriptor_variants, ∀ v1 ∈ p.2, ∀ v2 ∈ p.2, v1 ≠ v2 →
      ∀ (su bg fg : Str) (dims : Nat × Nat × Nat × Nat),
        filepathOf (Combo.mk su p.1 v1 dims bg fg) ≠
        filepathOf (Combo.mk su p.1 v2 dims bg fg)) := by
  refine ⟨suffixes_pairwise, ?_⟩
  intro p hp v1 hv1 v2 hv2 hne su bg fg dims heq
  have hsym : Symmetric (fun a b : Str => suffix_of a ≠ suffix_of b) :=
    fun _ _ h e => h e.symm
  have hsuf : suffix_of v1 ≠ suffix_of v2 :=
    (suffixes_pairwise p hp).forall hsym hv1 hv2 hne
  have h0 : (icon_path su p.1 bg fg ++ "/".data) ++ icon_filename dims v1
      = (icon_path su p.1 bg fg ++ "/".data) ++ icon_filename dims v2 :=
    heq
  have h1 : icon_filename dims v1 = icon_filename dims v2 :=
    List.append_cancel_left h0
  rw [icon_filename_eq, icon_filename_eq] at h1
  have h2 := List.append_cancel_right h1
  exact hsuf (List.append_cancel_left h2)

/-- Witness for C9: the "bn" and "be" variants of by-nc yield different
files for the same dimensions and colors. -/
theorem variants_have_distinct_outputs_witness :
    filepathOf (Combo.mk "l".data "by-nc".data "bn".data (88, 31, 31, 1)
      "transparent".data "000000".data) ≠
    filepathOf (Combo.mk "l".data "by-nc".data "be".data (88, 31, 31, 1)
      "transparent".data "000000".data) :=
  variants_have_distinct_outputs.2
    ("by-nc".data, ["bn".data, "be".data, "by".data]) (by decide)
    "bn".data (by decide) "be".data (by decide) (by decide)
    "l".data "transparent".data "000000".data (88, 31, 31, 1)
